import Mathlib

/-!
Verification of the `sqlasync` asynchronous SQLite engine from the ylib
collection (sources: `sqlasync.c` and `sqlasync.h`).

The development shallowly embeds the worker thread state machine
(`sqlasync_thread*` functions), and the result-queue / wakeup-hub layer
(`sqlasync_queue_*`, `sqlasync_dispatch`).  The SQLite engine itself is an
external collaborator; it is modelled as an oracle: a prepared statement is a
finite list of step outcomes, and commit / open outcomes and the current error
message are fields of an `Engine` record.  Machine integers are modelled as
`Nat` (SQLite status codes are small non-negative numbers); the one place the
C code narrows a code (`sqlasync_result_create` takes `unsigned short`) is
modelled with an explicit `% 65536`.
-/

namespace Sqlasync

/-! ### SQLite status codes and sqlasync flag constants -/

/-- SQLITE_OK. -/
def SQLITE_OK : Nat := 0
/-- SQLITE_ERROR. -/
def SQLITE_ERROR : Nat := 1
/-- SQLITE_BUSY. -/
def SQLITE_BUSY : Nat := 5
/-- SQLITE_MISUSE: returned by sqlite3_step on a statement that has already
delivered its final status.  A well-formed statement oracle never exposes it. -/
def SQLITE_MISUSE : Nat := 21
/-- SQLITE_ROW. -/
def SQLITE_ROW : Nat := 100
/-- SQLITE_DONE. -/
def SQLITE_DONE : Nat := 101

/-- SQLASYNC_NEXT = 1<<2 (sqlasync.h). -/
def SQLASYNC_NEXT : Nat := 4
/-- SQLASYNC_LAST = 2<<2 (sqlasync.h). -/
def SQLASYNC_LAST : Nat := 8
/-- SQLASYNC_SINGLE = 3<<2 (sqlasync.h); also the mask of the chain-flag bits. -/
def SQLASYNC_SINGLE : Nat := 12

/-- UINT_MAX on the (32-bit unsigned int) platforms the library targets. -/
def UINT_MAX : Nat := 4294967295

/-! ### Values and results -/

/-- A tagged SQLite value (`sqlasync_value_t`).  Floats are irrelevant to the
claims and are not distinguished from blobs here; text carries its string,
blobs only their length. -/
inductive SqlValue where
  | vnull
  | vint (i : Int)
  | vtext (s : String)
  | vblob (len : Nat)
  deriving DecidableEq

/-- One result record (`sqlasync_result_t`): status code, last flag, columns.
The intrusive `next`/`queue` pointers are represented by the containing
lists/tags instead. -/
structure sqlasync_result_t where
  result : Nat
  last : Bool
  cols : List SqlValue
  deriving DecidableEq

/-- sqlasync_result_create(result, last, numcol): the `result` parameter has C
type `unsigned short`, so the stored code is the argument reduced mod 2^16.
The column array, filled in by the caller in C, is passed directly. -/
def sqlasync_result_create (result : Nat) (last : Bool) (cols : List SqlValue) :
    sqlasync_result_t :=
  { result := result % 65536, last := last, cols := cols }

/-! ### The engine oracle -/

/-- Outcome of one sqlite3_step call on a prepared statement: either a row
with its column values (sqlite3_step returned SQLITE_ROW) or a bare status
code (anything else, e.g. SQLITE_DONE, SQLITE_BUSY, or an error). -/
inductive StepR where
  | row (cols : List SqlValue)
  | code (c : Nat)
  deriving DecidableEq

/-- Outcome of sqlite3_prepare_v2 on an operation's SQL text:
`preperr c` - prepare failed with code `c` (the statement handle is NULL);
`prepempty` - prepare succeeded but the query was empty (handle NULL);
`prepstmt steps` - a non-empty statement whose successive sqlite3_step calls
return the listed outcomes. -/
inductive PrepRes where
  | preperr (c : Nat)
  | prepempty
  | prepstmt (steps : List StepR)
  deriving DecidableEq

/-- Engine-side context for one worker action: the first non-BUSY status a
COMMIT step would return, the sqlite3_errmsg text, and the status of a
sqlite3_open call. -/
structure Engine where
  commitCode : Nat
  errmsg : String
  openCode : Nat
  deriving DecidableEq

/-! ### Observable events

The worker functions are embedded as pure functions that also return the list
of observable events they perform, in order: engine invocations and result
pushes (`sqlasync_queue_result(q, r)`, with `none` standing for a NULL queue
pointer). -/

/-- An engine invocation made by the worker. -/
inductive EngCall where
  | prepare
  | begin
  | commit
  | rollback
  deriving DecidableEq

/-- An observable event of the worker thread. -/
inductive Ev where
  | eng (c : EngCall)
  | push (q : Option Nat) (r : sqlasync_result_t)
  deriving DecidableEq

/-! ### sqlasync_thread_exec (sqlasync.c lines 758-792) -/

/-- The `while(r == SQLITE_ROW)` loop of sqlasync_thread_exec.  Outside a
transaction a SQLITE_BUSY status is retried (the loop steps again); inside a
transaction it ends the loop like any non-ROW status.  Row outcomes are
collected in order.  An exhausted oracle stands for stepping a finished
statement, which SQLite reports as SQLITE_MISUSE. -/
def sqlasync_step_loop (intrans : Bool) : List StepR → List (List SqlValue) × Nat
  | [] => ([], SQLITE_MISUSE)
  | StepR.row cols :: rest =>
      let p := sqlasync_step_loop intrans rest
      (cols :: p.1, p.2)
  | StepR.code c :: rest =>
      if c = SQLITE_BUSY ∧ intrans = false then sqlasync_step_loop intrans rest
      else ([], c)

/-- sqlasync_thread_row: build the SQLITE_ROW result pushed for one row. -/
def sqlasync_thread_row (cols : List SqlValue) : sqlasync_result_t :=
  sqlasync_result_create SQLITE_ROW false cols

/-- sqlasync_thread_exec: prepare, bind and execute one statement, pushing a
row result to `q` for every row.  Returns the final status, whether the
statement handle was non-NULL (prepare succeeded on a non-empty query), and
the event trace.  Does not push the final `last` status result. -/
def sqlasync_thread_exec (intrans : Bool) (q : Option Nat) (p : PrepRes) :
    Nat × Bool × List Ev :=
  match p with
  | PrepRes.preperr c => (c, false, [Ev.eng EngCall.prepare])
  | PrepRes.prepempty => (SQLITE_DONE, false, [Ev.eng EngCall.prepare])
  | PrepRes.prepstmt steps =>
      let p := sqlasync_step_loop intrans steps
      (p.2, true,
        Ev.eng EngCall.prepare :: p.1.map (fun cols => Ev.push q (sqlasync_thread_row cols)))

/-! ### sqlasync_thread_final (sqlasync.c lines 797-803) -/

/-- sqlasync_thread_final: the `last` status result for one operation.  If the
code is neither SQLITE_OK nor SQLITE_DONE, a single text column carries
sqlite3_errmsg; otherwise there are no columns. -/
def sqlasync_thread_final (errmsg : String) (r : Nat) : sqlasync_result_t :=
  let okay := r = SQLITE_OK ∨ r = SQLITE_DONE
  sqlasync_result_create r true (if okay then [] else [SqlValue.vtext errmsg])

/-! ### Worker state and transaction helpers (sqlasync.c lines 317-339, 719-751) -/

/-- The worker-visible fields of `struct sqlasync_t`: the transaction flags
`intrans`, `errtrans`, `donext`, whether a transaction timeout was configured
(`sqlasync_havetranstimeout`), whether a database is open (`db != NULL`), and
the secondary queue stored at open (`dbqueue`). -/
structure SqlState where
  intrans : Bool
  errtrans : Bool
  donext : Bool
  havetimeout : Bool
  dbopen : Bool
  dbqueue : Option Nat
  deriving DecidableEq

/-- sqlasync_thread_begin: open a transaction (cannot fail per its comment). -/
def sqlasync_thread_begin (s : SqlState) : SqlState × List Ev :=
  ({ s with intrans := true }, [Ev.eng EngCall.begin])

/-- sqlasync_thread_rollback: roll back; failure is ignored. -/
def sqlasync_thread_rollback (s : SqlState) : SqlState × List Ev :=
  ({ s with intrans := false }, [Ev.eng EngCall.rollback])

/-- sqlasync_thread_commit: step COMMIT, retrying SQLITE_BUSY indefinitely
(the oracle's `commitCode` is the first non-BUSY status); on any status other
than SQLITE_DONE a rollback is performed instead.  Either way the transaction
is closed.  Returns the commit status. -/
def sqlasync_thread_commit (eng : Engine) (s : SqlState) : Nat × SqlState × List Ev :=
  (eng.commitCode, { s with intrans := false },
   if eng.commitCode ≠ SQLITE_DONE then [Ev.eng EngCall.commit, Ev.eng EngCall.rollback]
   else [Ev.eng EngCall.commit])

/-! ### sqlasync_thread_sql (sqlasync.c lines 806-869) -/

/-- An SQL operation (`sqlasync_op_t` with a plain-query flag word):
destination queue, full flag word, and the engine's behaviour for its SQL
text.  The chain flag is `flags &&& SQLASYNC_SINGLE` as in the C code. -/
structure SqlOp where
  q : Option Nat
  flags : Nat
  prep : PrepRes
  deriving DecidableEq

/-- sqlasync_thread_sql: execute one queued SQL operation, updating the
transaction flags and emitting engine calls, row results and exactly one
final status result, in C source order. -/
def sqlasync_thread_sql (eng : Engine) (s : SqlState) (op : SqlOp) : SqlState × List Ev :=
  let chain := op.flags &&& SQLASYNC_SINGLE
  if chain = SQLASYNC_SINGLE then
    -- SINGLE queries are executed directly
    let e := sqlasync_thread_exec s.intrans op.q op.prep
    (s, e.2.2 ++ [Ev.push op.q (sqlasync_thread_final eng.errmsg e.1)])
  else if s.errtrans = true then
    -- in an aborted NEXT-chain: report SQLITE_ERROR without executing
    let s1 := if chain ≠ SQLASYNC_NEXT then { s with errtrans := false } else s
    (s1, [Ev.push op.q (sqlasync_thread_final eng.errmsg SQLITE_ERROR)])
  else if chain = SQLASYNC_LAST ∨
      (s.havetimeout = false ∧ s.donext = true ∧ chain ≠ SQLASYNC_NEXT) then
    -- LAST query, or last query of a NEXT chain without transaction timeout:
    -- the commit outcome becomes the reported status
    let e := sqlasync_thread_exec s.intrans op.q op.prep
    if s.intrans = true ∧ e.1 ≠ SQLITE_DONE then
      let rb := sqlasync_thread_rollback s
      (rb.1, e.2.2 ++ rb.2 ++ [Ev.push op.q (sqlasync_thread_final eng.errmsg e.1)])
    else if s.intrans = true ∧ e.1 = SQLITE_DONE then
      let cm := sqlasync_thread_commit eng s
      (cm.2.1, e.2.2 ++ cm.2.2 ++ [Ev.push op.q (sqlasync_thread_final eng.errmsg cm.1)])
    else
      (s, e.2.2 ++ [Ev.push op.q (sqlasync_thread_final eng.errmsg e.1)])
  else
    -- normal / NEXT query: open a transaction first if needed
    let b := if s.intrans = false ∧ (chain = SQLASYNC_NEXT ∨ s.havetimeout = true) then
               sqlasync_thread_begin s
             else (s, [])
    let e := sqlasync_thread_exec b.1.intrans op.q op.prep
    if e.2.1 = true ∧ e.1 ≠ SQLITE_DONE then
      let rb := if b.1.intrans = true then sqlasync_thread_rollback b.1 else (b.1, [])
      let s3 := if chain = SQLASYNC_NEXT then { rb.1 with errtrans := true } else rb.1
      (s3, b.2 ++ e.2.2 ++ rb.2 ++ [Ev.push op.q (sqlasync_thread_final eng.errmsg e.1)])
    else
      (b.1, b.2 ++ e.2.2 ++ [Ev.push op.q (sqlasync_thread_final eng.errmsg e.1)])

/-! ### sqlasync_thread_open / close (sqlasync.c lines 872-913) -/

/-- sqlasync_thread_open: open the database (oracle `openCode`, 0 = success).
Asserts no database is open (`none` = assertion failure).  On failure the
per-open queue gets the error result and the secondary queue gets an
SQLITE_OK last result, in that order; on success the secondary queue is
remembered as `dbqueue`. -/
def sqlasync_thread_open (eng : Engine) (s : SqlState) (q errq : Option Nat) :
    Option (SqlState × List Ev) :=
  if s.dbopen = true then none
  else if eng.openCode ≠ 0 then
    some (s,
      [Ev.push q (sqlasync_result_create eng.openCode true [SqlValue.vtext eng.errmsg]),
       Ev.push errq (sqlasync_result_create SQLITE_OK true [])])
  else
    some ({ s with dbopen := true, dbqueue := errq },
      [Ev.push q (sqlasync_result_create SQLITE_OK true [])])

/-- sqlasync_thread_close: close the database (tolerates none being open) and
push the SQLITE_OK last result to the secondary queue stored at open. -/
def sqlasync_thread_close (s : SqlState) : SqlState × List Ev :=
  ({ s with dbopen := false, dbqueue := none },
   [Ev.push s.dbqueue (sqlasync_result_create SQLITE_OK true [])])

/-! ### The worker loop, sqlasync_thread (sqlasync.c lines 942-989) -/

/-- One dequeued operation, as constructed by the public API: an SQL
operation, open (with its two queues), close, quit, or a custom operation.
A custom operation is modelled by the list of results its callback pushes to
its queue. -/
inductive WorkOp where
  | wsql (op : SqlOp)
  | wopen (q errq : Option Nat)
  | wclose
  | wquit
  | wcustom (q : Option Nat) (cbResults : List sqlasync_result_t)
  deriving DecidableEq

/-- The guard of the deferred-commit block at the top of the worker loop:
commit when the wait timed out with no operation (`none`), or when a
transaction is open and the operation is Open/Close/Quit/Custom or carries
the SINGLE flag. -/
def sqlasync_thread_needscommit (s : SqlState) (mop : Option WorkOp) : Bool :=
  match mop with
  | none => true
  | some (WorkOp.wsql op) => s.intrans && ((op.flags &&& SQLASYNC_SINGLE) = SQLASYNC_SINGLE)
  | some _ => s.intrans

/-- The body of the deferred-commit block: commit, and if the commit failed
push a non-last error result carrying sqlite3_errmsg to the secondary queue
stored at open (never to a per-query queue). -/
def sqlasync_thread_docommit (eng : Engine) (s : SqlState) : SqlState × List Ev :=
  let cm := sqlasync_thread_commit eng s
  if cm.1 ≠ SQLITE_DONE then
    (cm.2.1, cm.2.2 ++
      [Ev.push s.dbqueue (sqlasync_result_create cm.1 false [SqlValue.vtext eng.errmsg])])
  else (cm.2.1, cm.2.2)

/-- One iteration of the worker loop: run the deferred-commit block when its
guard holds (asserting that no NEXT continuation is pending - `none` models
the assertion failing), then handle the operation.  For SQL operations the
`donext` flag is updated afterwards.  The returned Bool is true when the loop
exits (quit), in which case the database is closed first. -/
def sqlasync_thread_step (eng : Engine) (s : SqlState) (mop : Option WorkOp) :
    Option (SqlState × List Ev × Bool) :=
  let needc := sqlasync_thread_needscommit s mop
  if needc = true ∧ s.donext = true then none
  else
    let dc := if needc = true then sqlasync_thread_docommit eng s else (s, [])
    match mop with
    | none => some (dc.1, dc.2, false)
    | some (WorkOp.wopen q errq) =>
        match sqlasync_thread_open eng dc.1 q errq with
        | none => none
        | some o => some (o.1, dc.2 ++ o.2, false)
    | some WorkOp.wclose =>
        let c := sqlasync_thread_close dc.1
        some (c.1, dc.2 ++ c.2, false)
    | some WorkOp.wquit =>
        let c := sqlasync_thread_close dc.1
        some (c.1, dc.2 ++ c.2, true)
    | some (WorkOp.wcustom q cb) =>
        some (dc.1, dc.2 ++ cb.map (Ev.push q), false)
    | some (WorkOp.wsql op) =>
        let r := sqlasync_thread_sql eng dc.1 op
        some ({ r.1 with donext := (op.flags &&& SQLASYNC_SINGLE) = SQLASYNC_NEXT },
              dc.2 ++ r.2, false)

/-- The guarantee of sqlasync_thread_getnext: it returns no operation only
when the transaction deadline elapsed, which requires an open transaction and
no pending NEXT continuation (its trailing assertion). -/
def sqlasync_getnext_ok (s : SqlState) (mop : Option WorkOp) : Bool :=
  match mop with
  | none => s.intrans && !s.donext
  | some _ => true

/-! ### Result queues and the wakeup hub (sqlasync.c lines 260-579)

Queues are identified by natural numbers; a system `HubSys` holds one wakeup
hub and the state of every queue.  Synchronous queues never touch the hub.
Freeing of queue objects (`sqlasync_queue_free`) releases memory and is not
observable in the model; the `destroyed` flag and the counters that decide it
are tracked faithfully. -/

/-- The mutable fields of `struct sqlasync_queue_t`. -/
structure sqlasync_queue_st where
  sync : Bool
  each : Bool
  fifo : List sqlasync_result_t
  numscheduled : Nat
  destroyed : Bool
  numresults : Nat
  maxresults : Nat
  deriving DecidableEq

/-- The mutable fields of `struct sqlasync_wakeup_t`: the shared result FIFO
(each entry tagged with its owning queue), the scheduled counter and the
has-woken flag. -/
structure sqlasync_wakeup_st where
  fifo : List (Nat × sqlasync_result_t)
  numscheduled : Nat
  haswoken : Bool
  deriving DecidableEq

/-- A wakeup hub together with the states of all queues. -/
structure HubSys where
  w : sqlasync_wakeup_st
  qs : Nat → sqlasync_queue_st

/-- Replace the state of queue `i`. -/
def setQ (sys : HubSys) (i : Nat) (q : sqlasync_queue_st) : HubSys :=
  { sys with qs := fun j => if j = i then q else sys.qs j }

/-- sqlasync_queue_sync: calloc-zeroed fields, sync flag set, unbounded
capacity (maxresults = UINT_MAX). -/
def sqlasync_queue_sync : sqlasync_queue_st :=
  { sync := true, each := false, fifo := [], numscheduled := 0,
    destroyed := false, numresults := 0, maxresults := UINT_MAX }

/-- sqlasync_queue_async: calloc-zeroed fields, each = !!each, unbounded
capacity (maxresults = UINT_MAX). -/
def sqlasync_queue_async (each : Bool) : sqlasync_queue_st :=
  { sync := false, each := each, fifo := [], numscheduled := 0,
    destroyed := false, numresults := 0, maxresults := UINT_MAX }

/-- sqlasync_queue_buffersize: set maxresults to len, or to UINT_MAX when len
is 0; the C function returns the very queue pointer it was given, so the
model returns the same record with only maxresults changed. -/
def sqlasync_queue_buffersize (q : sqlasync_queue_st) (len : Nat) : sqlasync_queue_st :=
  { q with maxresults := if len ≠ 0 then len else UINT_MAX }

/-- Outcome of sqlasync_queue_result: either the producer blocks on the
capacity condition wait, or the push completes with the new system state,
whether the hub's wakeup callback was invoked, and whether the result object
was freed instead of delivered. -/
inductive PushOut where
  | blocked
  | done (sys : HubSys) (wakeupFired : Bool) (freed : Bool)

/-- sqlasync_queue_result on a non-NULL queue `i` (sqlasync.c lines 490-544).
On a destroyed queue the result is freed (decrementing schedule counters for
a last result).  Otherwise the producer waits while numresults ≥ maxresults;
then sync queues buffer locally, and async queues buffer non-last results
locally when each=0, moving them (followed by the last result) to the hub
FIFO on the last result, or forward every result immediately when each=1.
The wakeup callback fires only if the has-woken flag was clear, and the flag
is set whenever a wakeup-triggering condition occurred.  (C decrements the
unsigned scheduled counters; the model uses Nat subtraction, which agrees
whenever the counter is positive, as the API guarantees here.) -/
def sqlasync_queue_result_at (sys : HubSys) (i : Nat) (r : sqlasync_result_t) : PushOut :=
  let q := sys.qs i
  if q.destroyed = true then
    if r.last = true then
      let q1 := { q with numscheduled := q.numscheduled - 1 }
      if q.sync = true then
        PushOut.done (setQ sys i q1) false true
      else
        let shouldwakeup := sys.w.numscheduled = 1
        let w1 := { sys.w with numscheduled := sys.w.numscheduled - 1 }
        let fired := shouldwakeup ∧ w1.haswoken = false
        let w2 := if shouldwakeup then { w1 with haswoken := true } else w1
        PushOut.done { w := w2, qs := (setQ sys i q1).qs } (decide fired) true
    else
      PushOut.done sys false true
  else if q.numresults ≥ q.maxresults then
    PushOut.blocked
  else
    let q1 := { q with numresults := q.numresults + 1 }
    if q.sync = true then
      PushOut.done (setQ sys i { q1 with fifo := q1.fifo ++ [r] }) false false
    else
      let q2 := if q.each = false ∧ r.last = false then { q1 with fifo := q1.fifo ++ [r] }
                else q1
      let buf := if q.each = false ∧ r.last = true ∧ q2.fifo ≠ [] then
                   ({ q2 with fifo := [] },
                    { sys.w with fifo := sys.w.fifo ++ q2.fifo.map (fun x => (i, x)) })
                 else (q2, sys.w)
      let wk := if q.each = true ∨ r.last = true then
                  ({ buf.2 with fifo := buf.2.fifo ++ [(i, r)] }, true)
                else (buf.2, false)
      let fired := wk.2 = true ∧ wk.1.haswoken = false
      let w3 := if wk.2 = true then { wk.1 with haswoken := true } else wk.1
      PushOut.done { w := w3, qs := (setQ sys i buf.1).qs } (decide fired) false

/-- sqlasync_queue_result with a possibly-NULL queue: a NULL queue means the
result is freed immediately and nothing is pushed. -/
def sqlasync_queue_result (sys : HubSys) (mi : Option Nat) (r : sqlasync_result_t) : PushOut :=
  match mi with
  | none => PushOut.done sys false true
  | some i => sqlasync_queue_result_at sys i r

/-- Outcome of sqlasync_queue_get: a sync queue blocks while empty; otherwise
the call returns the popped result (or `none` when nothing is available for
this queue), together with whether it invoked the hub's wakeup callback. -/
inductive GetOut where
  | blocked
  | done (sys : HubSys) (res : Option sqlasync_result_t) (wakeupFired : Bool)

/-- sqlasync_queue_get on queue `i` (sqlasync.c lines 389-423).  A sync queue
pops its local FIFO (blocking while empty); an async queue pops the hub FIFO
head only when it belongs to this queue.  Counters are decremented for the
popped result, and when the popped result was a last result that brought the
hub's scheduled count to zero while the has-woken flag was clear, the wakeup
callback is invoked (and the flag set). -/
def sqlasync_queue_get_at (sys : HubSys) (i : Nat) : GetOut :=
  let q := sys.qs i
  if q.sync = true then
    match q.fifo with
    | [] => GetOut.blocked
    | res :: rest =>
        let q1 := { q with
          fifo := rest,
          numresults := q.numresults - 1,
          numscheduled := if res.last then q.numscheduled - 1 else q.numscheduled }
        GetOut.done (setQ sys i q1) (some res) false
  else
    match sys.w.fifo with
    | (j, res) :: rest =>
        if j = i then
          let q1 := { q with
            numresults := q.numresults - 1,
            numscheduled := if res.last then q.numscheduled - 1 else q.numscheduled }
          let w1 := { sys.w with
            fifo := rest,
            numscheduled := if res.last then sys.w.numscheduled - 1
                            else sys.w.numscheduled }
          let fired := res.last = true ∧ sys.w.numscheduled = 1 ∧ sys.w.haswoken = false
          let w2 := if decide fired then { w1 with haswoken := true } else w1
          GetOut.done { w := w2, qs := (setQ sys i q1).qs } (some res) (decide fired)
        else GetOut.done sys none false
    | [] => GetOut.done sys none false

/-- sqlasync_queue_schedule (sqlasync.c lines 428-441): a NULL queue is a
no-op; otherwise the queue's scheduled count is incremented and, for an async
queue, the hub's scheduled count too; the returned flag reports whether the
schedule callback would run (hub count transitioned from zero). -/
def sqlasync_queue_schedule (sys : HubSys) (mi : Option Nat) : HubSys × Bool :=
  match mi with
  | none => (sys, false)
  | some i =>
      let q := sys.qs i
      let q1 := { q with numscheduled := q.numscheduled + 1 }
      if q.sync = true then (setQ sys i q1, false)
      else
        ({ w := { sys.w with numscheduled := sys.w.numscheduled + 1 },
           qs := (setQ sys i q1).qs },
         sys.w.numscheduled = 0)

/-- sqlasync_queue_destroy (sqlasync.c lines 454-483): a NULL queue is a
no-op; otherwise mark the queue destroyed and discard its locally buffered
results, decrementing numresults for each and numscheduled for each last
result.  (The deferred free once both counters reach zero releases memory
only and is not modelled.) -/
def sqlasync_queue_destroy (sys : HubSys) (mi : Option Nat) : HubSys :=
  match mi with
  | none => sys
  | some i =>
      let q := sys.qs i
      setQ sys i { q with
        destroyed := true,
        fifo := [],
        numresults := q.numresults - q.fifo.length,
        numscheduled := q.numscheduled - (q.fifo.filter (fun r => r.last)).length }

/-- The drain loop of sqlasync_dispatch.  Results owned by destroyed queues
are discarded with their counters adjusted; for a live queue the consumer
callback runs, modelled as consuming the head result via sqlasync_queue_get
(the minimum its documented contract requires).  Each iteration removes the
hub FIFO head, so the initial FIFO length bounds the iterations. -/
def sqlasync_dispatch_loop : Nat → HubSys → HubSys
  | 0, sys => sys
  | fuel + 1, sys =>
      match sys.w.fifo with
      | [] => sys
      | (i, res) :: rest =>
          let q := sys.qs i
          if q.destroyed = true then
            let q1 := { q with
              numresults := q.numresults - 1,
              numscheduled := if res.last then q.numscheduled - 1 else q.numscheduled }
            let w1 := { sys.w with
              fifo := rest,
              numscheduled := if res.last then sys.w.numscheduled - 1
                              else sys.w.numscheduled }
            sqlasync_dispatch_loop fuel { w := w1, qs := (setQ sys i q1).qs }
          else
            match sqlasync_queue_get_at sys i with
            | GetOut.done sys1 _ _ => sqlasync_dispatch_loop fuel sys1
            | GetOut.blocked => sys

/-- sqlasync_dispatch (sqlasync.c lines 547-579): drain the hub FIFO, clear
the has-woken flag, and report whether the schedule callback re-fires (some
operations still scheduled). -/
def sqlasync_dispatch (sys : HubSys) : HubSys × Bool :=
  let sys1 := sqlasync_dispatch_loop sys.w.fifo.length sys
  ({ w := { sys1.w with haswoken := false }, qs := sys1.qs },
   sys1.w.numscheduled ≠ 0)

/-! ### Event sequences over a hub -/

/-- A queue-layer event: a worker push of a result to queue `i`, or a
consumer get from queue `i`. -/
inductive QEvent where
  | push (i : Nat) (r : sqlasync_result_t)
  | get (i : Nat)

/-- Run one queue-layer event; a blocked call leaves the system unchanged and
fires no callback.  Returns the new system and whether the hub's wakeup
callback was invoked. -/
def qevent_step (sys : HubSys) : QEvent → HubSys × Bool
  | QEvent.push i r =>
      match sqlasync_queue_result_at sys i r with
      | PushOut.blocked => (sys, false)
      | PushOut.done sys1 fired _ => (sys1, fired)
  | QEvent.get i =>
      match sqlasync_queue_get_at sys i with
      | GetOut.blocked => (sys, false)
      | GetOut.done sys1 _ fired => (sys1, fired)

/-- Number of wakeup-callback invocations over a sequence of queue events. -/
def wakeCount (sys : HubSys) : List QEvent → Nat
  | [] => 0
  | ev :: rest =>
      let st := qevent_step sys ev
      (if st.2 then 1 else 0) + wakeCount st.1 rest

/-! ### Trace helpers and worker runs -/

/-- The pushes of an event trace, as (target queue, result) pairs in order. -/
def pushesOf : List Ev → List (Option Nat × sqlasync_result_t)
  | [] => []
  | Ev.push q r :: rest => (q, r) :: pushesOf rest
  | Ev.eng _ :: rest => pushesOf rest

/-- The pushes of a trace whose result has the last flag set. -/
def lastPushes (tr : List Ev) : List (Option Nat × sqlasync_result_t) :=
  (pushesOf tr).filter (fun p => p.2.last)

/-- The engine calls of an event trace, in order. -/
def engCallsOf : List Ev → List EngCall
  | [] => []
  | Ev.push _ _ :: rest => engCallsOf rest
  | Ev.eng c :: rest => c :: engCallsOf rest

/-- A worker run is well-formed when every dequeue respects the
sqlasync_thread_getnext guarantee and no iteration trips an assertion; it
stops at quit. -/
def goodRun (s : SqlState) : List (Engine × Option WorkOp) → Bool
  | [] => true
  | (e, mop) :: rest =>
      sqlasync_getnext_ok s mop &&
      match sqlasync_thread_step e s mop with
      | none => false
      | some st => if st.2.2 then true else goodRun st.1 rest

/-- Over a run, the deferred-commit block at the top of the worker loop never
executes (so in particular no commit-failure result is ever pushed to the
secondary queue by it). -/
def noDeferredCommit (s : SqlState) : List (Engine × Option WorkOp) → Bool
  | [] => true
  | (e, mop) :: rest =>
      !sqlasync_thread_needscommit s mop &&
      match sqlasync_thread_step e s mop with
      | none => true
      | some st => if st.2.2 then true else noDeferredCommit st.1 rest

/-! ### Claim C4: busy-retry policy of sqlasync_thread_exec -/

theorem step_loop_skip_busy (l : List StepR) :
    sqlasync_step_loop false (StepR.code SQLITE_BUSY :: l) = sqlasync_step_loop false l := by
  simp [sqlasync_step_loop]

theorem step_loop_replicate_busy (n : Nat) (l : List StepR) :
    sqlasync_step_loop false (List.replicate n (StepR.code SQLITE_BUSY) ++ l) =
      sqlasync_step_loop false l := by
  induction n with
  | zero => rfl
  | succ k ih => simpa [List.replicate_succ, step_loop_skip_busy] using ih

theorem step_loop_never_busy (l : List StepR) :
    (sqlasync_step_loop false l).2 ≠ SQLITE_BUSY := by
  induction l with
  | nil => simp [sqlasync_step_loop, SQLITE_MISUSE, SQLITE_BUSY]
  | cons hd tl ih =>
      cases hd with
      | row cols => simpa [sqlasync_step_loop] using ih
      | code c =>
          by_cases hc : c = SQLITE_BUSY
          · simpa [sqlasync_step_loop, hc] using ih
          · simp [sqlasync_step_loop, hc]

theorem step_loop_intrans_busy (rows : List (List SqlValue)) (l : List StepR) :
    sqlasync_step_loop true (rows.map StepR.row ++ StepR.code SQLITE_BUSY :: l) =
      (rows, SQLITE_BUSY) := by
  induction rows with
  | nil => simp [sqlasync_step_loop]
  | cons r rs ih => simp [sqlasync_step_loop, ih]

/-- C4.  Outside a transaction, SQLITE_BUSY statuses from sqlite3_step are
retried: any finite number of leading BUSY responses is absorbed without
changing the outcome, and the loop can never end with SQLITE_BUSY.  Inside a
transaction, the first BUSY response is not retried: it ends the query at
once as its (error) final status, after whatever rows were already
produced. -/
theorem c4_busy_retry_policy :
    (∀ (n : Nat) (l : List StepR),
      sqlasync_step_loop false (List.replicate n (StepR.code SQLITE_BUSY) ++ l) =
        sqlasync_step_loop false l) ∧
    (∀ l : List StepR, (sqlasync_step_loop false l).2 ≠ SQLITE_BUSY) ∧
    (∀ (rows : List (List SqlValue)) (l : List StepR),
      sqlasync_step_loop true (rows.map StepR.row ++ StepR.code SQLITE_BUSY :: l) =
        (rows, SQLITE_BUSY)) :=
  ⟨step_loop_replicate_busy, step_loop_never_busy, step_loop_intrans_busy⟩

/-! ### Claim C7: shape of the final status result -/

/-- C7.  sqlasync_thread_final passes the engine status code through verbatim
(every SQLite status code fits in the unsigned short taken by
sqlasync_result_create), sets the last flag, and attaches exactly one text
column carrying sqlite3_errmsg on failure and no column on success
(SQLITE_OK or SQLITE_DONE). -/
theorem c7_final_error_shape (msg : String) (r : Nat) (hr : r < 65536) :
    (sqlasync_thread_final msg r).last = true ∧
    (sqlasync_thread_final msg r).result = r ∧
    (¬(r = SQLITE_OK ∨ r = SQLITE_DONE) →
      (sqlasync_thread_final msg r).cols = [SqlValue.vtext msg]) ∧
    ((r = SQLITE_OK ∨ r = SQLITE_DONE) → (sqlasync_thread_final msg r).cols = []) := by
  refine ⟨rfl, ?_, ?_, ?_⟩
  · simp [sqlasync_thread_final, sqlasync_result_create, Nat.mod_eq_of_lt hr]
  · intro h; simp [sqlasync_thread_final, sqlasync_result_create, h]
  · intro h; simp [sqlasync_thread_final, sqlasync_result_create, h]

theorem c7_final_error_shape_witness :
    ((19 : Nat) < 65536 ∧ ¬((19 : Nat) = SQLITE_OK ∨ (19 : Nat) = SQLITE_DONE)) ∧
    (sqlasync_thread_final "constraint failed" 19).last = true ∧
    (sqlasync_thread_final "constraint failed" 19).result = 19 ∧
    (sqlasync_thread_final "constraint failed" 19).cols =
      [SqlValue.vtext "constraint failed"] :=
  ⟨⟨by decide, by decide⟩,
   (c7_final_error_shape "constraint failed" 19 (by decide)).1,
   (c7_final_error_shape "constraint failed" 19 (by decide)).2.1,
   (c7_final_error_shape "constraint failed" 19 (by decide)).2.2.1 (by decide)⟩

/-! ### Claim C9: queue construction defaults and buffersize -/

/-- C9.  Queues from sqlasync_queue_sync and sqlasync_queue_async start
unbounded (maxresults = UINT_MAX); sqlasync_queue_buffersize with len = 0
resets to unbounded and with len ≠ 0 sets the bound to len; and it returns
the very queue it was given, changing no other field. -/
theorem c9_queue_defaults :
    sqlasync_queue_sync.maxresults = UINT_MAX ∧
    (∀ each, (sqlasync_queue_async each).maxresults = UINT_MAX) ∧
    (∀ q, sqlasync_queue_buffersize q 0 = { q with maxresults := UINT_MAX }) ∧
    (∀ q len, len ≠ 0 → sqlasync_queue_buffersize q len = { q with maxresults := len }) ∧
    (∀ q len, (sqlasync_queue_buffersize q len).sync = q.sync ∧
      (sqlasync_queue_buffersize q len).each = q.each ∧
      (sqlasync_queue_buffersize q len).fifo = q.fifo ∧
      (sqlasync_queue_buffersize q len).numscheduled = q.numscheduled ∧
      (sqlasync_queue_buffersize q len).destroyed = q.destroyed ∧
      (sqlasync_queue_buffersize q len).numresults = q.numresults) := by
  refine ⟨rfl, fun each => rfl, fun q => rfl, fun q len h => ?_, fun q len => ?_⟩
  · simp [sqlasync_queue_buffersize, h]
  · exact ⟨rfl, rfl, rfl, rfl, rfl, rfl⟩

theorem c9_queue_defaults_witness :
    (5 : Nat) ≠ 0 ∧
    sqlasync_queue_buffersize sqlasync_queue_sync 5 =
      { sqlasync_queue_sync with maxresults := 5 } :=
  ⟨by decide, c9_queue_defaults.2.2.2.1 sqlasync_queue_sync 5 (by decide)⟩

/-! ### Trace lemmas -/

theorem pushesOf_append (a b : List Ev) : pushesOf (a ++ b) = pushesOf a ++ pushesOf b := by
  induction a with
  | nil => rfl
  | cons hd tl ih => cases hd <;> simp [pushesOf, ih]

theorem engCallsOf_append (a b : List Ev) :
    engCallsOf (a ++ b) = engCallsOf a ++ engCallsOf b := by
  induction a with
  | nil => rfl
  | cons hd tl ih => cases hd <;> simp [engCallsOf, ih]

theorem pushesOf_map_row (q : Option Nat) (l : List (List SqlValue)) :
    pushesOf (l.map (fun cols => Ev.push q (sqlasync_thread_row cols))) =
      l.map (fun cols => (q, sqlasync_thread_row cols)) := by
  induction l with
  | nil => rfl
  | cons hd tl ih => simp [pushesOf, ih]

theorem engCallsOf_map_row (q : Option Nat) (l : List (List SqlValue)) :
    engCallsOf (l.map (fun cols => Ev.push q (sqlasync_thread_row cols))) = [] := by
  induction l with
  | nil => rfl
  | cons hd tl ih => simp [engCallsOf, ih]

theorem thread_exec_prepare (intrans : Bool) (q : Option Nat) (p : PrepRes) :
    EngCall.prepare ∈ engCallsOf (sqlasync_thread_exec intrans q p).2.2 := by
  cases p <;> simp [sqlasync_thread_exec, engCallsOf, engCallsOf_map_row]

theorem thread_exec_push_target (intrans : Bool) (q : Option Nat) (p : PrepRes) :
    ∀ x ∈ pushesOf (sqlasync_thread_exec intrans q p).2.2, x.1 = q := by
  cases p with
  | preperr c => intro x hx; simp [sqlasync_thread_exec, pushesOf] at hx
  | prepempty => intro x hx; simp [sqlasync_thread_exec, pushesOf] at hx
  | prepstmt steps =>
      intro x hx
      simp [sqlasync_thread_exec, pushesOf, pushesOf_map_row] at hx
      obtain ⟨cols, _, rfl⟩ := hx
      rfl

theorem thread_exec_lastPushes (intrans : Bool) (q : Option Nat) (p : PrepRes) :
    lastPushes (sqlasync_thread_exec intrans q p).2.2 = [] := by
  cases p with
  | preperr c => rfl
  | prepempty => rfl
  | prepstmt steps =>
      simp [sqlasync_thread_exec, lastPushes, pushesOf, pushesOf_map_row,
        List.filter_eq_nil_iff]
      intro cols _
      simp [sqlasync_thread_row, sqlasync_result_create]

theorem pushesOf_commit (eng : Engine) (s : SqlState) :
    pushesOf (sqlasync_thread_commit eng s).2.2 = [] := by
  simp only [sqlasync_thread_commit]
  split <;> rfl

theorem pushesOf_rollback (s : SqlState) :
    pushesOf (sqlasync_thread_rollback s).2 = [] := rfl

theorem pushesOf_begin (s : SqlState) :
    pushesOf (sqlasync_thread_begin s).2 = [] := rfl

theorem thread_sql_push_target (eng : Engine) (s : SqlState) (op : SqlOp) :
    ∀ x ∈ pushesOf (sqlasync_thread_sql eng s op).2, x.1 = op.q := by
  intro x hx
  simp only [sqlasync_thread_sql] at hx
  split_ifs at hx <;>
    simp only [List.append_eq, pushesOf_append, pushesOf_commit, pushesOf_rollback,
      pushesOf_begin, pushesOf, List.mem_append, List.append_nil, List.nil_append,
      List.mem_cons, List.not_mem_nil, or_false, false_or] at hx <;>
    first
      | (rw [hx])
      | (rcases hx with hx | hx
         · exact thread_exec_push_target _ _ _ x hx
         · rw [hx])

theorem thread_sql_prepare (eng : Engine) (s : SqlState) (op : SqlOp)
    (h : s.errtrans = false) :
    EngCall.prepare ∈ engCallsOf (sqlasync_thread_sql eng s op).2 := by
  simp only [sqlasync_thread_sql]
  split_ifs <;>
    first
      | (exact absurd ‹s.errtrans = true› (by simp [h]))
      | (simp only [List.append_eq, engCallsOf_append, engCallsOf, List.mem_append,
           List.not_mem_nil, or_false, false_or]
         simp [thread_exec_prepare])

/-! ### Claim C10: NULL queues mean discard -/

/-- C10.  A NULL queue pointer is tolerated everywhere as discard:
sqlasync_queue_result frees the result at once and pushes nothing (the system
is unchanged and no wakeup fires), sqlasync_queue_schedule and
sqlasync_queue_destroy return with no effect; and an SQL operation submitted
with a NULL result queue (outside an aborted chain) still reaches the engine,
while every result it produces is pushed with the NULL target, hence
discarded. -/
theorem c10_null_queue_discard (sys : HubSys) (r : sqlasync_result_t)
    (eng : Engine) (s : SqlState) (op : SqlOp)
    (hq : op.q = none) (he : s.errtrans = false) :
    sqlasync_queue_result sys none r = PushOut.done sys false true ∧
    sqlasync_queue_schedule sys none = (sys, false) ∧
    sqlasync_queue_destroy sys none = sys ∧
    EngCall.prepare ∈ engCallsOf (sqlasync_thread_sql eng s op).2 ∧
    ∀ x ∈ pushesOf (sqlasync_thread_sql eng s op).2, x.1 = none := by
  refine ⟨rfl, rfl, rfl, thread_sql_prepare eng s op he, ?_⟩
  intro x hx
  rw [← hq]
  exact thread_sql_push_target eng s op x hx

/-- Concrete system and operation used by witnesses. -/
def wtsys : HubSys :=
  { w := { fifo := [], numscheduled := 0, haswoken := false },
    qs := fun _ => sqlasync_queue_sync }

/-- Concrete engine oracle used by witnesses. -/
def wteng : Engine := { commitCode := SQLITE_DONE, errmsg := "m", openCode := 0 }

/-- Concrete result used by witnesses. -/
def wtres : sqlasync_result_t := sqlasync_result_create SQLITE_DONE true []

/-- Concrete worker state used by witnesses. -/
def wtst : SqlState :=
  { intrans := false, errtrans := false, donext := false, havetimeout := false,
    dbopen := true, dbqueue := some 9 }

/-- Concrete NULL-queue operation used by witnesses. -/
def wtop : SqlOp :=
  { q := none, flags := 0, prep := PrepRes.prepstmt [StepR.code SQLITE_DONE] }

theorem c10_null_queue_discard_witness :
    (wtop.q = none ∧ wtst.errtrans = false) ∧
    sqlasync_queue_result wtsys none wtres = PushOut.done wtsys false true ∧
    sqlasync_queue_schedule wtsys none = (wtsys, false) ∧
    sqlasync_queue_destroy wtsys none = wtsys ∧
    EngCall.prepare ∈ engCallsOf (sqlasync_thread_sql wteng wtst wtop).2 ∧
    ∀ x ∈ pushesOf (sqlasync_thread_sql wteng wtst wtop).2, x.1 = none :=
  ⟨⟨rfl, rfl⟩, c10_null_queue_discard wtsys wtres wteng wtst wtop rfl rfl⟩

/-! ### Claim C8: queue capacity backpressure -/

theorem setQ_qs_self (sys : HubSys) (i : Nat) (q : sqlasync_queue_st) :
    (setQ sys i q).qs i = q := by simp [setQ]

theorem setQ_qs_other (sys : HubSys) (i j : Nat) (q : sqlasync_queue_st) (h : j ≠ i) :
    (setQ sys i q).qs j = sys.qs j := by simp [setQ, h]

theorem queue_result_blocked_full (sys : HubSys) (i : Nat) (r : sqlasync_result_t)
    (hd : (sys.qs i).destroyed = false)
    (hn : (sys.qs i).numresults ≥ (sys.qs i).maxresults) :
    sqlasync_queue_result_at sys i r = PushOut.blocked := by
  simp [sqlasync_queue_result_at, hd, hn]

set_option maxHeartbeats 1600000 in
theorem queue_result_bound (sys : HubSys) (i : Nat) (r : sqlasync_result_t)
    (sys1 : HubSys) (fired freed : Bool)
    (hb : (sys.qs i).numresults ≤ (sys.qs i).maxresults)
    (h : sqlasync_queue_result_at sys i r = PushOut.done sys1 fired freed) :
    (sys1.qs i).numresults ≤ (sys.qs i).maxresults := by
  simp only [sqlasync_queue_result_at] at h
  split_ifs at h <;> (try cases h) <;> (try simp only [setQ_qs_self]) <;>
    (try simp) <;> omega

set_option maxHeartbeats 1600000 in
theorem queue_result_other (sys : HubSys) (i j : Nat) (r : sqlasync_result_t)
    (sys1 : HubSys) (fired freed : Bool) (hj : j ≠ i)
    (h : sqlasync_queue_result_at sys j r = PushOut.done sys1 fired freed) :
    sys1.qs i = sys.qs i := by
  have hij : i ≠ j := Ne.symm hj
  simp only [sqlasync_queue_result_at] at h
  split_ifs at h <;> (try cases h) <;>
    (try (simp only [setQ]; rw [if_neg hij])) <;> (try rfl)

set_option maxHeartbeats 400000 in
theorem queue_get_dec (sys : HubSys) (i : Nat)
    (sys1 : HubSys) (res : sqlasync_result_t) (fired : Bool)
    (h : sqlasync_queue_get_at sys i = GetOut.done sys1 (some res) fired) :
    (sys1.qs i).numresults = (sys.qs i).numresults - 1 ∧
    (sys1.qs i).maxresults = (sys.qs i).maxresults ∧
    (sys1.qs i).destroyed = (sys.qs i).destroyed := by
  simp only [sqlasync_queue_get_at] at h
  split_ifs at h
  · cases hf : (sys.qs i).fifo with
    | nil => rw [hf] at h; cases h
    | cons hd tl => rw [hf] at h; cases h; simp [setQ_qs_self]
  · cases hf : sys.w.fifo with
    | nil => rw [hf] at h; cases h
    | cons hd tl =>
        rw [hf] at h
        rcases hd with ⟨j, res0⟩
        by_cases hji : j = i
        · simp only [hji, if_pos] at h
          cases h
          simp [setQ_qs_self]
        · simp only [if_neg hji] at h
          simp at h

/-- The completing outcome of a push to queue `i` keeps its numresults within
the queue capacity (trivially true for a blocked push). -/
def pushKeepsBound (sys : HubSys) (i : Nat) : PushOut → Prop
  | PushOut.blocked => True
  | PushOut.done sys1 _ _ => (sys1.qs i).numresults ≤ (sys.qs i).maxresults

/-- A completing push leaves queue `i` untouched. -/
def pushLeavesQueue (sys : HubSys) (i : Nat) : PushOut → Prop
  | PushOut.blocked => True
  | PushOut.done sys1 _ _ => sys1.qs i = sys.qs i

/-- A pop that returns a result decrements numresults of queue `i` by one and
leaves its capacity and destroyed flag unchanged. -/
def getDecrements (sys : HubSys) (i : Nat) : GetOut → Prop
  | GetOut.done sys1 (some _) _ =>
      (sys1.qs i).numresults = (sys.qs i).numresults - 1 ∧
      (sys1.qs i).maxresults = (sys.qs i).maxresults ∧
      (sys1.qs i).destroyed = (sys.qs i).destroyed
  | _ => True

/-- C8.  A queue bounded at maxresults = N never exceeds N undelivered
results: with the queue not destroyed, a push once numresults has reached the
bound blocks on the condition wait instead of completing; a completing push
keeps numresults within the bound; a push to a different queue leaves this
queue untouched; and a successful pop decrements numresults by one (leaving
the bound and destroyed flag unchanged), which is what unblocks the waiting
producer. -/
theorem c8_backpressure_bound (sys : HubSys) (i : Nat) (r : sqlasync_result_t)
    (hbound : (sys.qs i).numresults ≤ (sys.qs i).maxresults) :
    ((sys.qs i).destroyed = false → (sys.qs i).numresults ≥ (sys.qs i).maxresults →
      sqlasync_queue_result_at sys i r = PushOut.blocked) ∧
    pushKeepsBound sys i (sqlasync_queue_result_at sys i r) ∧
    (∀ j, j ≠ i → pushLeavesQueue sys i (sqlasync_queue_result_at sys j r)) ∧
    getDecrements sys i (sqlasync_queue_get_at sys i) := by
  refine ⟨queue_result_blocked_full sys i r, ?_, ?_, ?_⟩
  · cases hout : sqlasync_queue_result_at sys i r with
    | blocked => exact trivial
    | done sys1 fired freed =>
        exact queue_result_bound sys i r sys1 fired freed hbound hout
  · intro j hj
    cases hout : sqlasync_queue_result_at sys j r with
    | blocked => exact trivial
    | done sys1 fired freed =>
        exact queue_result_other sys i j r sys1 fired freed hj hout
  · cases hout : sqlasync_queue_get_at sys i with
    | blocked => exact trivial
    | done sys1 res fired =>
        cases res with
        | none => exact trivial
        | some res0 => exact queue_get_dec sys i sys1 res0 fired hout

/-- A bounded queue holding its full single slot, used by witnesses. -/
def wtfullq : sqlasync_queue_st :=
  { sync := true, each := false, fifo := [wtres], numscheduled := 1,
    destroyed := false, numresults := 1, maxresults := 1 }

/-- A system whose every queue is full at capacity one, used by witnesses. -/
def wtfull : HubSys :=
  { w := { fifo := [], numscheduled := 0, haswoken := false },
    qs := fun _ => wtfullq }

theorem c8_backpressure_bound_witness :
    ((wtfull.qs 0).numresults ≤ (wtfull.qs 0).maxresults ∧
      (wtfull.qs 0).destroyed = false ∧
      (wtfull.qs 0).numresults ≥ (wtfull.qs 0).maxresults) ∧
    sqlasync_queue_result_at wtfull 0 wtres = PushOut.blocked ∧
    getDecrements wtfull 0 (sqlasync_queue_get_at wtfull 0) :=
  ⟨⟨by decide, by decide, by decide⟩,
   (c8_backpressure_bound wtfull 0 wtres (by decide)).1 (by decide) (by decide),
   (c8_backpressure_bound wtfull 0 wtres (by decide)).2.2.2⟩

/-! ### Claim C3: at-most-once wakeup between dispatches -/

set_option maxHeartbeats 1600000 in
theorem queue_result_haswoken (sys : HubSys) (i : Nat) (r : sqlasync_result_t)
    (sys1 : HubSys) (fired freed : Bool)
    (h : sqlasync_queue_result_at sys i r = PushOut.done sys1 fired freed) :
    (fired = true → sys1.w.haswoken = true) ∧
    (sys.w.haswoken = true → fired = false ∧ sys1.w.haswoken = true) ∧
    (fired = false → sys1.w.haswoken = sys.w.haswoken) := by
  simp only [sqlasync_queue_result_at] at h
  split_ifs at h <;> (cases h) <;>
    refine ⟨fun hf => ?_, fun hw => ⟨?_, ?_⟩, fun hnf => ?_⟩ <;>
    simp_all [setQ]

set_option maxHeartbeats 1600000 in
theorem queue_get_haswoken (sys : HubSys) (i : Nat)
    (sys1 : HubSys) (res : Option sqlasync_result_t) (fired : Bool)
    (h : sqlasync_queue_get_at sys i = GetOut.done sys1 res fired) :
    (fired = true → sys1.w.haswoken = true) ∧
    (sys.w.haswoken = true → fired = false ∧ sys1.w.haswoken = true) ∧
    (fired = false → sys1.w.haswoken = sys.w.haswoken) := by
  simp only [sqlasync_queue_get_at] at h
  split_ifs at h
  · cases hf : (sys.qs i).fifo with
    | nil => rw [hf] at h; cases h
    | cons hd tl =>
        rw [hf] at h; cases h
        exact ⟨fun hf => by simp at hf, fun hw => ⟨rfl, hw⟩, fun _ => rfl⟩
  · cases hf : sys.w.fifo with
    | nil =>
        rw [hf] at h; cases h
        exact ⟨fun hf => by simp at hf, fun hw => ⟨rfl, hw⟩, fun _ => rfl⟩
    | cons hd tl =>
        rw [hf] at h
        rcases hd with ⟨j, res0⟩
        by_cases hji : j = i
        · simp only [hji, if_pos] at h
          cases h
          refine ⟨fun hf => ?_, fun hw => ⟨?_, ?_⟩, fun hnf => ?_⟩ <;> (try simp_all) <;>
            (split_ifs with hc <;> simp_all)
        · simp only [if_neg hji] at h
          cases h
          exact ⟨fun hf => by simp at hf, fun hw => ⟨rfl, hw⟩, fun _ => rfl⟩

theorem qevent_step_haswoken (sys : HubSys) (ev : QEvent) :
    ((qevent_step sys ev).2 = true → (qevent_step sys ev).1.w.haswoken = true) ∧
    (sys.w.haswoken = true →
      (qevent_step sys ev).2 = false ∧ (qevent_step sys ev).1.w.haswoken = true) ∧
    ((qevent_step sys ev).2 = false →
      (qevent_step sys ev).1.w.haswoken = sys.w.haswoken) := by
  cases ev with
  | push i r =>
      simp only [qevent_step]
      cases hp : sqlasync_queue_result_at sys i r with
      | blocked => exact ⟨fun hf => by simp at hf, fun hw => ⟨rfl, hw⟩, fun _ => rfl⟩
      | done sys1 fired freed => exact queue_result_haswoken sys i r sys1 fired freed hp
  | get i =>
      simp only [qevent_step]
      cases hp : sqlasync_queue_get_at sys i with
      | blocked => exact ⟨fun hf => by simp at hf, fun hw => ⟨rfl, hw⟩, fun _ => rfl⟩
      | done sys1 res fired => exact queue_get_haswoken sys i sys1 res fired hp

theorem wakeCount_woken (sys : HubSys) (evs : List QEvent)
    (hw : sys.w.haswoken = true) : wakeCount sys evs = 0 := by
  induction evs generalizing sys with
  | nil => rfl
  | cons ev rest ih =>
      have hev := qevent_step_haswoken sys ev
      have hf := hev.2.1 hw
      have h0 := ih _ hf.2
      simp [wakeCount, hf.1, h0]

theorem wakeCount_le_one (sys : HubSys) (evs : List QEvent) :
    wakeCount sys evs ≤ 1 := by
  induction evs generalizing sys with
  | nil => exact Nat.zero_le 1
  | cons ev rest ih =>
      have hev := qevent_step_haswoken sys ev
      simp only [wakeCount]
      cases hf : (qevent_step sys ev).2 with
      | true =>
          have h1 := hev.1 hf
          have h0 := wakeCount_woken (qevent_step sys ev).1 rest h1
          simp [hf, h0]
      | false =>
          have h0 := ih (qevent_step sys ev).1
          simpa using h0

/-- C3.  Between two consecutive sqlasync_dispatch calls, the hub's wakeup
callback fires at most once no matter how many results are pushed (or popped)
on its queues: any event raising the callback leaves the has-woken flag set,
while the flag is set no event fires the callback or clears the flag, the
whole count over any event sequence is at most one (and zero when the flag is
already set), and only sqlasync_dispatch resets the flag. -/
theorem c3_wakeup_at_most_once :
    (∀ (sys : HubSys) (evs : List QEvent), wakeCount sys evs ≤ 1) ∧
    (∀ (sys : HubSys) (evs : List QEvent), sys.w.haswoken = true →
      wakeCount sys evs = 0) ∧
    (∀ (sys : HubSys) (ev : QEvent),
      (qevent_step sys ev).2 = true → (qevent_step sys ev).1.w.haswoken = true) ∧
    (∀ (sys : HubSys) (ev : QEvent), sys.w.haswoken = true →
      (qevent_step sys ev).2 = false ∧ (qevent_step sys ev).1.w.haswoken = true) ∧
    (∀ sys : HubSys, ((sqlasync_dispatch sys).1).w.haswoken = false) :=
  ⟨wakeCount_le_one, wakeCount_woken,
   fun sys ev => (qevent_step_haswoken sys ev).1,
   fun sys ev => (qevent_step_haswoken sys ev).2.1,
   fun _ => rfl⟩

/-- Concrete system with the has-woken flag set, used by witnesses. -/
def wtsysWoken : HubSys :=
  { w := { fifo := [], numscheduled := 0, haswoken := true },
    qs := fun _ => sqlasync_queue_sync }

theorem c3_wakeup_at_most_once_witness :
    wakeCount wtsys [QEvent.push 0 wtres, QEvent.get 0] ≤ 1 ∧
    (wtsysWoken.w.haswoken = true ∧
      wakeCount wtsysWoken [QEvent.push 0 wtres, QEvent.get 0] = 0 ∧
      (qevent_step wtsysWoken (QEvent.get 0)).2 = false) ∧
    ((sqlasync_dispatch wtsysWoken).1).w.haswoken = false :=
  ⟨c3_wakeup_at_most_once.1 wtsys _,
   ⟨rfl, c3_wakeup_at_most_once.2.1 wtsysWoken _ rfl,
    (c3_wakeup_at_most_once.2.2.2.1 wtsysWoken (QEvent.get 0) rfl).1⟩,
   c3_wakeup_at_most_once.2.2.2.2 wtsysWoken⟩

/-! ### Claim C1: NEXT-chain abort semantics -/

/-- Engine oracle for the C1 counterexample. -/
def cxeng : Engine := { commitCode := SQLITE_DONE, errmsg := "e", openCode := 0 }

/-- Mid-chain state for the C1 counterexample: the previous chain member was
Next-flagged and succeeded, so a transaction is open. -/
def cxstate : SqlState :=
  { intrans := true, errtrans := false, donext := true, havetimeout := false,
    dbopen := true, dbqueue := some 9 }

/-- A Next-flagged member whose statement fails to prepare. -/
def cxfail : SqlOp :=
  { q := some 0, flags := SQLASYNC_NEXT, prep := PrepRes.preperr SQLITE_ERROR }

/-- The following Next-flagged member, which parses and executes fine. -/
def cxnext : SqlOp :=
  { q := some 0, flags := SQLASYNC_NEXT, prep := PrepRes.prepstmt [StepR.code SQLITE_DONE] }

/-- C1 fails as stated: a Next-flagged chain member whose statement fails to
prepare reports an error result, yet the transaction is NOT rolled back
(intrans stays set, no rollback call), the abort flag is NOT set, and the
next chain member executes against the engine and succeeds.  (This matches
test/sqlasync.c, whose chain member 2 is commented "fails in _prepare(),
does not abort the transaction".) -/
theorem c1_chain_abort_cex :
    ((sqlasync_thread_sql cxeng cxstate cxfail).2 =
        [Ev.eng EngCall.prepare,
         Ev.push (some 0) (sqlasync_thread_final "e" SQLITE_ERROR)] ∧
      (sqlasync_thread_sql cxeng cxstate cxfail).1.errtrans = false ∧
      (sqlasync_thread_sql cxeng cxstate cxfail).1.intrans = true) ∧
    (engCallsOf (sqlasync_thread_sql cxeng
        (sqlasync_thread_sql cxeng cxstate cxfail).1 cxnext).2 = [EngCall.prepare] ∧
      lastPushes (sqlasync_thread_sql cxeng
        (sqlasync_thread_sql cxeng cxstate cxfail).1 cxnext).2 =
        [(some 0, sqlasync_thread_final "e" SQLITE_DONE)]) := by
  refine ⟨⟨?_, ?_, ?_⟩, ?_, ?_⟩ <;> rfl

theorem c1_abort_on_step_failure (eng : Engine) (s : SqlState) (op : SqlOp)
    (steps : List StepR) (he : s.errtrans = false)
    (hc : op.flags &&& SQLASYNC_SINGLE = SQLASYNC_NEXT)
    (hp : op.prep = PrepRes.prepstmt steps)
    (hf : (sqlasync_step_loop true steps).2 ≠ SQLITE_DONE) :
    (sqlasync_thread_sql eng s op).1.errtrans = true ∧
    (sqlasync_thread_sql eng s op).1.intrans = false ∧
    EngCall.rollback ∈ engCallsOf (sqlasync_thread_sql eng s op).2 := by
  have hns : ¬(op.flags &&& SQLASYNC_SINGLE = SQLASYNC_SINGLE) := by
    rw [hc]; decide
  have hlast : ¬(op.flags &&& SQLASYNC_SINGLE = SQLASYNC_LAST ∨
      (s.havetimeout = false ∧ s.donext = true ∧
        op.flags &&& SQLASYNC_SINGLE ≠ SQLASYNC_NEXT)) := by
    rw [hc]
    rintro (h | ⟨_, _, h⟩)
    · exact absurd h (by decide)
    · exact h rfl
  simp only [SQLASYNC_NEXT, SQLASYNC_LAST, SQLASYNC_SINGLE] at hc hns hlast
  cases hI : s.intrans with
  | true =>
      simp [sqlasync_thread_sql, hns, he, hlast, hI, hc, hp, hf,
        sqlasync_thread_begin, sqlasync_thread_exec, sqlasync_thread_rollback,
        engCallsOf_append, engCallsOf, engCallsOf_map_row,
        SQLASYNC_NEXT, SQLASYNC_LAST, SQLASYNC_SINGLE]
  | false =>
      simp [sqlasync_thread_sql, hns, he, hlast, hI, hc, hp, hf,
        sqlasync_thread_begin, sqlasync_thread_exec, sqlasync_thread_rollback,
        engCallsOf_append, engCallsOf, engCallsOf_map_row,
        SQLASYNC_NEXT, SQLASYNC_LAST, SQLASYNC_SINGLE]

theorem c1_poisoned_member_fails (eng : Engine) (s : SqlState) (op : SqlOp)
    (he : s.errtrans = true)
    (hc : op.flags &&& SQLASYNC_SINGLE = SQLASYNC_NEXT) :
    sqlasync_thread_sql eng s op =
      (s, [Ev.push op.q (sqlasync_thread_final eng.errmsg SQLITE_ERROR)]) := by
  have hns : ¬(op.flags &&& SQLASYNC_SINGLE = SQLASYNC_SINGLE) := by
    rw [hc]; decide
  simp only [SQLASYNC_NEXT, SQLASYNC_SINGLE] at hc hns
  simp [sqlasync_thread_sql, hns, he, hc, SQLASYNC_NEXT, SQLASYNC_SINGLE]

theorem c1_boundary_clears (eng : Engine) (s : SqlState) (op : SqlOp)
    (he : s.errtrans = true)
    (hcN : op.flags &&& SQLASYNC_SINGLE ≠ SQLASYNC_NEXT)
    (hcS : op.flags &&& SQLASYNC_SINGLE ≠ SQLASYNC_SINGLE) :
    sqlasync_thread_sql eng s op =
      ({ s with errtrans := false },
       [Ev.push op.q (sqlasync_thread_final eng.errmsg SQLITE_ERROR)]) := by
  simp only [SQLASYNC_NEXT, SQLASYNC_SINGLE] at hcN hcS
  simp [sqlasync_thread_sql, hcS, he, hcN, SQLASYNC_NEXT, SQLASYNC_SINGLE]

theorem c1_single_bypasses (eng : Engine) (s : SqlState) (op : SqlOp)
    (hcS : op.flags &&& SQLASYNC_SINGLE = SQLASYNC_SINGLE) :
    (sqlasync_thread_sql eng s op).1.errtrans = s.errtrans ∧
    EngCall.prepare ∈ engCallsOf (sqlasync_thread_sql eng s op).2 := by
  constructor
  · simp [sqlasync_thread_sql, hcS]
  · simp only [sqlasync_thread_sql, hcS, if_true]
    simp [engCallsOf_append, thread_exec_prepare]

/-- C1 (amended).  In a NEXT chain: a Next-flagged member whose statement was
successfully prepared (non-empty) and failed during execution rolls the open
transaction back and sets the abort flag; while the abort flag is set, every
further Next-flagged member fails with SQLITE_ERROR without touching the
engine and without clearing the flag; the flag clears at the next operation
whose chain flag is neither Next nor Single, which itself also fails with
SQLITE_ERROR without executing; a Single-flagged operation bypasses the abort
check (it executes and leaves the flag untouched).  Members failing in
prepare (or empty) do not abort the chain (see the counterexample). -/
theorem c1_chain_abort_amended (eng : Engine) (s : SqlState) (op : SqlOp) :
    (∀ steps, s.errtrans = false →
      op.flags &&& SQLASYNC_SINGLE = SQLASYNC_NEXT →
      op.prep = PrepRes.prepstmt steps →
      (sqlasync_step_loop true steps).2 ≠ SQLITE_DONE →
      (sqlasync_thread_sql eng s op).1.errtrans = true ∧
      (sqlasync_thread_sql eng s op).1.intrans = false ∧
      EngCall.rollback ∈ engCallsOf (sqlasync_thread_sql eng s op).2) ∧
    (s.errtrans = true → op.flags &&& SQLASYNC_SINGLE = SQLASYNC_NEXT →
      sqlasync_thread_sql eng s op =
        (s, [Ev.push op.q (sqlasync_thread_final eng.errmsg SQLITE_ERROR)])) ∧
    (s.errtrans = true → op.flags &&& SQLASYNC_SINGLE ≠ SQLASYNC_NEXT →
      op.flags &&& SQLASYNC_SINGLE ≠ SQLASYNC_SINGLE →
      sqlasync_thread_sql eng s op =
        ({ s with errtrans := false },
         [Ev.push op.q (sqlasync_thread_final eng.errmsg SQLITE_ERROR)])) ∧
    (op.flags &&& SQLASYNC_SINGLE = SQLASYNC_SINGLE →
      (sqlasync_thread_sql eng s op).1.errtrans = s.errtrans ∧
      EngCall.prepare ∈ engCallsOf (sqlasync_thread_sql eng s op).2) :=
  ⟨fun steps he hc hp hf => c1_abort_on_step_failure eng s op steps he hc hp hf,
   fun he hc => c1_poisoned_member_fails eng s op he hc,
   fun he hcN hcS => c1_boundary_clears eng s op he hcN hcS,
   fun hcS => c1_single_bypasses eng s op hcS⟩

/-- A Next-flagged member that fails during sqlite3_step, for witnesses. -/
def cxstepfail : SqlOp :=
  { q := some 0, flags := SQLASYNC_NEXT, prep := PrepRes.prepstmt [StepR.code 19] }

/-- The aborted-chain state, for witnesses. -/
def cxaborted : SqlState :=
  { intrans := false, errtrans := true, donext := true, havetimeout := false,
    dbopen := true, dbqueue := some 9 }

/-- A plain (chain-flag 0) boundary operation, for witnesses. -/
def cxplain : SqlOp :=
  { q := some 0, flags := 0, prep := PrepRes.prepstmt [StepR.code SQLITE_DONE] }

theorem c1_chain_abort_amended_witness :
    (cxstate.errtrans = false ∧
      cxstepfail.flags &&& SQLASYNC_SINGLE = SQLASYNC_NEXT ∧
      cxstepfail.prep = PrepRes.prepstmt [StepR.code 19] ∧
      (sqlasync_step_loop true [StepR.code 19]).2 ≠ SQLITE_DONE ∧
      (sqlasync_thread_sql cxeng cxstate cxstepfail).1.errtrans = true ∧
      (sqlasync_thread_sql cxeng cxstate cxstepfail).1.intrans = false ∧
      EngCall.rollback ∈ engCallsOf (sqlasync_thread_sql cxeng cxstate cxstepfail).2) ∧
    (cxaborted.errtrans = true ∧
      sqlasync_thread_sql cxeng cxaborted cxnext =
        (cxaborted, [Ev.push (some 0) (sqlasync_thread_final "e" SQLITE_ERROR)])) ∧
    (sqlasync_thread_sql cxeng cxaborted cxplain =
      ({ cxaborted with errtrans := false },
       [Ev.push (some 0) (sqlasync_thread_final "e" SQLITE_ERROR)])) :=
  ⟨⟨rfl, rfl, rfl, by decide,
    (c1_chain_abort_amended cxeng cxstate cxstepfail).1 [StepR.code 19]
      rfl rfl rfl (by decide)⟩,
   ⟨rfl, (c1_chain_abort_amended cxeng cxaborted cxnext).2.1 rfl rfl⟩,
   (c1_chain_abort_amended cxeng cxaborted cxplain).2.2.1 rfl
     (by decide) (by decide)⟩

/-! ### Claim C5: LAST / terminal chain member commits before the final result -/

/-- C5.  For an exec operation whose chain flag is LAST, or the terminal
member of a NEXT chain (previous operation was Next-flagged, this one is
neither Next- nor Single-flagged) when no transaction timeout is configured,
and the chain is not aborted: the worker executes the statement; then, if a
transaction is open and the statement succeeded, it commits and the final
status result pushed afterwards carries the commit outcome; if a transaction
is open and the statement failed, it rolls back before pushing the statement
status; with no open transaction the statement status is pushed directly.
The trace equalities exhibit the ordering: the commit or rollback engine call
precedes the final status push. -/
theorem c5_commit_before_final (eng : Engine) (s : SqlState) (op : SqlOp)
    (he : s.errtrans = false)
    (hcond : op.flags &&& SQLASYNC_SINGLE = SQLASYNC_LAST ∨
      (s.havetimeout = false ∧ s.donext = true ∧
        op.flags &&& SQLASYNC_SINGLE ≠ SQLASYNC_NEXT ∧
        op.flags &&& SQLASYNC_SINGLE ≠ SQLASYNC_SINGLE)) :
    (s.intrans = true →
      (sqlasync_thread_exec s.intrans op.q op.prep).1 = SQLITE_DONE →
      sqlasync_thread_sql eng s op =
        ({ s with intrans := false },
         (sqlasync_thread_exec s.intrans op.q op.prep).2.2 ++
           (if eng.commitCode ≠ SQLITE_DONE then
              [Ev.eng EngCall.commit, Ev.eng EngCall.rollback]
            else [Ev.eng EngCall.commit]) ++
           [Ev.push op.q (sqlasync_thread_final eng.errmsg eng.commitCode)])) ∧
    (s.intrans = true →
      (sqlasync_thread_exec s.intrans op.q op.prep).1 ≠ SQLITE_DONE →
      sqlasync_thread_sql eng s op =
        ({ s with intrans := false },
         (sqlasync_thread_exec s.intrans op.q op.prep).2.2 ++
           [Ev.eng EngCall.rollback] ++
           [Ev.push op.q (sqlasync_thread_final eng.errmsg
             (sqlasync_thread_exec s.intrans op.q op.prep).1)])) ∧
    (s.intrans = false →
      sqlasync_thread_sql eng s op =
        (s, (sqlasync_thread_exec s.intrans op.q op.prep).2.2 ++
          [Ev.push op.q (sqlasync_thread_final eng.errmsg
            (sqlasync_thread_exec s.intrans op.q op.prep).1)])) := by
  have hns : ¬(op.flags &&& SQLASYNC_SINGLE = SQLASYNC_SINGLE) := by
    rcases hcond with h | ⟨_, _, _, h⟩
    · rw [h]; decide
    · exact h
  have hbr : op.flags &&& SQLASYNC_SINGLE = SQLASYNC_LAST ∨
      (s.havetimeout = false ∧ s.donext = true ∧
        op.flags &&& SQLASYNC_SINGLE ≠ SQLASYNC_NEXT) := by
    rcases hcond with h | ⟨h1, h2, h3, _⟩
    · exact Or.inl h
    · exact Or.inr ⟨h1, h2, h3⟩
  refine ⟨fun hI hr => ?_, fun hI hr => ?_, fun hI => ?_⟩
  · simp only [hI] at hr
    simp [sqlasync_thread_sql, hns, he, hbr, hI, hr,
      sqlasync_thread_rollback, sqlasync_thread_commit]
  · simp only [hI] at hr
    simp [sqlasync_thread_sql, hns, he, hbr, hI, hr,
      sqlasync_thread_rollback, sqlasync_thread_commit]
  · simp [sqlasync_thread_sql, hns, he, hbr, hI,
      sqlasync_thread_rollback, sqlasync_thread_commit]

/-- A LAST-flagged operation whose statement succeeds, for witnesses. -/
def cxlast : SqlOp :=
  { q := some 0, flags := SQLASYNC_LAST, prep := PrepRes.prepstmt [StepR.code SQLITE_DONE] }

/-- An engine whose COMMIT fails with SQLITE_IOERR (code 10), for witnesses. -/
def cxengioerr : Engine := { commitCode := 10, errmsg := "disk I/O error", openCode := 0 }

theorem c5_commit_before_final_witness :
    (cxstate.errtrans = false ∧
      cxlast.flags &&& SQLASYNC_SINGLE = SQLASYNC_LAST ∧
      cxstate.intrans = true ∧
      (sqlasync_thread_exec cxstate.intrans cxlast.q cxlast.prep).1 = SQLITE_DONE) ∧
    sqlasync_thread_sql cxengioerr cxstate cxlast =
      ({ cxstate with intrans := false },
       (sqlasync_thread_exec cxstate.intrans cxlast.q cxlast.prep).2.2 ++
         [Ev.eng EngCall.commit, Ev.eng EngCall.rollback] ++
         [Ev.push (some 0) (sqlasync_thread_final "disk I/O error" 10)]) :=
  ⟨⟨rfl, rfl, rfl, by decide⟩, by
    have h := (c5_commit_before_final cxengioerr cxstate cxlast rfl
      (Or.inl rfl)).1 rfl (by decide)
    simpa using h⟩

/-! ### Claim C2: exactly one last result per executed operation -/

theorem lastPushes_append (a b : List Ev) :
    lastPushes (a ++ b) = lastPushes a ++ lastPushes b := by
  simp [lastPushes, pushesOf_append, List.filter_append]

theorem lastPushes_commit (eng : Engine) (s : SqlState) :
    lastPushes (sqlasync_thread_commit eng s).2.2 = [] := by
  simp only [sqlasync_thread_commit]
  split <;> rfl

theorem lastPushes_exec (intrans : Bool) (q : Option Nat) (p : PrepRes) :
    lastPushes (sqlasync_thread_exec intrans q p).2.2 = [] :=
  thread_exec_lastPushes intrans q p

theorem lastPushes_final (q : Option Nat) (m : String) (r : Nat) :
    lastPushes [Ev.push q (sqlasync_thread_final m r)] =
      [(q, sqlasync_thread_final m r)] := by
  simp [lastPushes, pushesOf, sqlasync_thread_final, sqlasync_result_create]

theorem lastPushes_eng (c : EngCall) : lastPushes [Ev.eng c] = [] := rfl

theorem lastPushes_nil : lastPushes [] = [] := rfl

theorem thread_sql_lastPushes (eng : Engine) (s : SqlState) (op : SqlOp) :
    ∃ rc, lastPushes (sqlasync_thread_sql eng s op).2 =
      [(op.q, sqlasync_thread_final eng.errmsg rc)] := by
  simp only [sqlasync_thread_sql]
  split_ifs <;>
    exact ⟨_, by
      simp only [List.append_eq, lastPushes_append, lastPushes_commit,
        lastPushes_exec, lastPushes_final, lastPushes_eng, lastPushes_nil,
        sqlasync_thread_rollback, sqlasync_thread_begin,
        List.nil_append, List.append_nil]
      rfl⟩

theorem lastPushes_docommit (eng : Engine) (s : SqlState) :
    lastPushes (sqlasync_thread_docommit eng s).2 = [] := by
  simp only [sqlasync_thread_docommit, sqlasync_thread_commit]
  split_ifs <;>
    simp [lastPushes_append, lastPushes, pushesOf, sqlasync_result_create]

theorem lastPushes_map_push (q : Option Nat) (cb : List sqlasync_result_t) :
    lastPushes (cb.map (Ev.push q)) =
      (cb.filter (fun r => r.last)).map (fun r => (q, r)) := by
  induction cb with
  | nil => rfl
  | cons hd tl ih =>
      by_cases hl : hd.last = true <;>
        simp [lastPushes, pushesOf, List.filter, hl, ih] <;>
        simpa [lastPushes, pushesOf] using ih

theorem docommit_state (eng : Engine) (s : SqlState) :
    (sqlasync_thread_docommit eng s).1 = { s with intrans := false } := by
  simp only [sqlasync_thread_docommit, sqlasync_thread_commit]
  split_ifs <;> rfl

theorem thread_open_ok (eng : Engine) (s : SqlState) (q errq : Option Nat)
    (hdb : s.dbopen = false) (h0 : eng.openCode = 0) :
    sqlasync_thread_open eng s q errq =
      some ({ s with dbopen := true, dbqueue := errq },
        [Ev.push q (sqlasync_result_create SQLITE_OK true [])]) := by
  simp [sqlasync_thread_open, hdb, h0]

theorem thread_open_fail (eng : Engine) (s : SqlState) (q errq : Option Nat)
    (hdb : s.dbopen = false) (h0 : eng.openCode ≠ 0) :
    sqlasync_thread_open eng s q errq =
      some (s,
        [Ev.push q (sqlasync_result_create eng.openCode true [SqlValue.vtext eng.errmsg]),
         Ev.push errq (sqlasync_result_create SQLITE_OK true [])]) := by
  simp [sqlasync_thread_open, hdb, h0]

/-- The event trace of one worker-loop iteration (empty on assertion
failure). -/
def stepEvents : Option (SqlState × List Ev × Bool) → List Ev
  | none => []
  | some p => p.2.1

/-- C2.  Every executed operation yields exactly one last = true result on
its designated queue.  Each conjunct assumes only that the iteration
completes - sqlasync_thread_step does not hit an assertion - which every
dequeued operation of a well-formed run satisfies, including every member of
a NEXT chain (mid-chain, poisoned, and boundary operations alike, since
their deferred-commit guard is false).  An SQL operation yields exactly one
last result (the final status, on op.q); a Close exactly one SQLITE_OK on
the secondary queue stored at open; an Open whose open succeeds exactly one
on its primary queue, and when the open fails additionally exactly one
SQLITE_OK on its secondary queue; a Custom operation exactly one provided
its callback pushes exactly one last result (its documented contract).  The
deferred-commit block contributes no last result. -/
theorem c2_exactly_once_last (eng : Engine) (s : SqlState) :
    (∀ op : SqlOp,
      sqlasync_thread_step eng s (some (WorkOp.wsql op)) ≠ none →
      ∃ rc,
      lastPushes (stepEvents (sqlasync_thread_step eng s (some (WorkOp.wsql op)))) =
        [(op.q, sqlasync_thread_final eng.errmsg rc)]) ∧
    (∀ q errq : Option Nat, s.dbopen = false →
      sqlasync_thread_step eng s (some (WorkOp.wopen q errq)) ≠ none →
      (eng.openCode = 0 →
        lastPushes (stepEvents (sqlasync_thread_step eng s (some (WorkOp.wopen q errq)))) =
          [(q, sqlasync_result_create SQLITE_OK true [])]) ∧
      (eng.openCode ≠ 0 →
        lastPushes (stepEvents (sqlasync_thread_step eng s (some (WorkOp.wopen q errq)))) =
          [(q, sqlasync_result_create eng.openCode true [SqlValue.vtext eng.errmsg]),
           (errq, sqlasync_result_create SQLITE_OK true [])])) ∧
    (sqlasync_thread_step eng s (some WorkOp.wclose) ≠ none →
      lastPushes (stepEvents (sqlasync_thread_step eng s (some WorkOp.wclose))) =
      [(s.dbqueue, sqlasync_result_create SQLITE_OK true [])]) ∧
    (∀ (q : Option Nat) (cb : List sqlasync_result_t) (res : sqlasync_result_t),
      cb.filter (fun r => r.last) = [res] →
      sqlasync_thread_step eng s (some (WorkOp.wcustom q cb)) ≠ none →
      lastPushes (stepEvents (sqlasync_thread_step eng s (some (WorkOp.wcustom q cb)))) =
        [(q, res)]) := by
  refine ⟨?_, ?_, ?_, ?_⟩
  · intro op hne
    have hguard : ¬(sqlasync_thread_needscommit s (some (WorkOp.wsql op)) = true ∧
        s.donext = true) := fun hcontra =>
      hne (by simp [sqlasync_thread_step, hcontra.1, hcontra.2])
    simp only [sqlasync_thread_step]
    rw [if_neg hguard]
    by_cases hc : sqlasync_thread_needscommit s (some (WorkOp.wsql op)) = true
    · obtain ⟨rc, hrc⟩ := thread_sql_lastPushes eng { s with intrans := false } op
      refine ⟨rc, ?_⟩
      simp only [hc, eq_self_iff_true, if_true, docommit_state, stepEvents,
        lastPushes_append, lastPushes_docommit, hrc, List.nil_append]
    · obtain ⟨rc, hrc⟩ := thread_sql_lastPushes eng s op
      refine ⟨rc, ?_⟩
      simp only [Bool.not_eq_true] at hc
      simp only [hc, Bool.false_eq_true, if_false, stepEvents,
        lastPushes_append, lastPushes_nil, hrc, List.nil_append]
  · intro q errq hdb hne
    have hdb2 : (SqlState.mk false s.errtrans s.donext s.havetimeout s.dbopen
        s.dbqueue).dbopen = false := hdb
    have hguard : ¬(sqlasync_thread_needscommit s (some (WorkOp.wopen q errq)) = true ∧
        s.donext = true) := fun hcontra =>
      hne (by simp [sqlasync_thread_step, hcontra.1, hcontra.2])
    constructor <;> intro hopen <;>
      (simp only [sqlasync_thread_step]; rw [if_neg hguard]) <;>
      by_cases hc : sqlasync_thread_needscommit s (some (WorkOp.wopen q errq)) = true
    · simp only [hc, eq_self_iff_true, if_true, docommit_state]
      rw [thread_open_ok eng _ q errq hdb2 hopen]
      simp only [stepEvents, lastPushes_append, lastPushes_docommit,
        List.nil_append]
      simp [lastPushes, pushesOf, sqlasync_result_create]
    · simp only [Bool.not_eq_true] at hc
      simp only [hc, Bool.false_eq_true, if_false]
      rw [thread_open_ok eng s q errq hdb hopen]
      simp [stepEvents, lastPushes_append, lastPushes_nil, lastPushes,
        pushesOf, sqlasync_result_create]
    · simp only [hc, eq_self_iff_true, if_true, docommit_state]
      rw [thread_open_fail eng _ q errq hdb2 hopen]
      simp only [stepEvents, lastPushes_append, lastPushes_docommit,
        List.nil_append]
      simp [lastPushes, pushesOf, sqlasync_result_create]
    · simp only [Bool.not_eq_true] at hc
      simp only [hc, Bool.false_eq_true, if_false]
      rw [thread_open_fail eng s q errq hdb hopen]
      simp [stepEvents, lastPushes_append, lastPushes_nil, lastPushes,
        pushesOf, sqlasync_result_create]
  · intro hne
    have hguard : ¬(sqlasync_thread_needscommit s (some WorkOp.wclose) = true ∧
        s.donext = true) := fun hcontra =>
      hne (by simp [sqlasync_thread_step, hcontra.1, hcontra.2])
    simp only [sqlasync_thread_step]
    rw [if_neg hguard]
    simp only [sqlasync_thread_close]
    by_cases hc : sqlasync_thread_needscommit s (some WorkOp.wclose) = true
    · simp only [hc, eq_self_iff_true, if_true, docommit_state, stepEvents,
        lastPushes_append, lastPushes_docommit, List.nil_append]
      simp [lastPushes, pushesOf, sqlasync_result_create]
    · simp only [Bool.not_eq_true] at hc
      simp only [hc, Bool.false_eq_true, if_false, stepEvents,
        lastPushes_append, lastPushes_nil, List.nil_append]
      simp [lastPushes, pushesOf, sqlasync_result_create]
  · intro q cb res hcb hne
    have hguard : ¬(sqlasync_thread_needscommit s (some (WorkOp.wcustom q cb)) = true ∧
        s.donext = true) := fun hcontra =>
      hne (by simp [sqlasync_thread_step, hcontra.1, hcontra.2])
    simp only [sqlasync_thread_step]
    rw [if_neg hguard]
    by_cases hc : sqlasync_thread_needscommit s (some (WorkOp.wcustom q cb)) = true
    · simp only [hc, eq_self_iff_true, if_true, stepEvents, lastPushes_append,
        lastPushes_docommit, lastPushes_map_push, hcb, List.nil_append,
        List.map]
    · simp only [Bool.not_eq_true] at hc
      simp only [hc, Bool.false_eq_true, if_false, stepEvents,
        lastPushes_append, lastPushes_nil, lastPushes_map_push, hcb,
        List.nil_append, List.map]

/-- Worker state with no database open, for witnesses. -/
def wtstClosed : SqlState :=
  { intrans := false, errtrans := false, donext := false, havetimeout := false,
    dbopen := false, dbqueue := none }

theorem c2_exactly_once_last_witness :
    (wtst.donext = false ∧ cxstate.donext = true ∧ cxaborted.donext = true ∧
      wtstClosed.dbopen = false ∧ wteng.openCode = 0 ∧
      sqlasync_thread_step wteng wtst (some (WorkOp.wsql wtop)) ≠ none ∧
      sqlasync_thread_step cxeng cxstate (some (WorkOp.wsql cxnext)) ≠ none ∧
      sqlasync_thread_step cxeng cxaborted (some (WorkOp.wsql cxnext)) ≠ none) ∧
    (∃ rc, lastPushes (stepEvents (sqlasync_thread_step wteng wtst
        (some (WorkOp.wsql wtop)))) =
      [(wtop.q, sqlasync_thread_final wteng.errmsg rc)]) ∧
    (∃ rc, lastPushes (stepEvents (sqlasync_thread_step cxeng cxstate
        (some (WorkOp.wsql cxnext)))) =
      [(cxnext.q, sqlasync_thread_final cxeng.errmsg rc)]) ∧
    (∃ rc, lastPushes (stepEvents (sqlasync_thread_step cxeng cxaborted
        (some (WorkOp.wsql cxnext)))) =
      [(cxnext.q, sqlasync_thread_final cxeng.errmsg rc)]) ∧
    lastPushes (stepEvents (sqlasync_thread_step wteng wtstClosed
        (some (WorkOp.wopen (some 1) (some 2))))) =
      [(some 1, sqlasync_result_create SQLITE_OK true [])] ∧
    lastPushes (stepEvents (sqlasync_thread_step wteng wtst (some WorkOp.wclose))) =
      [(wtst.dbqueue, sqlasync_result_create SQLITE_OK true [])] ∧
    lastPushes (stepEvents (sqlasync_thread_step wteng wtst
        (some (WorkOp.wcustom (some 3) [wtres])))) =
      [(some 3, wtres)] :=
  ⟨⟨rfl, rfl, rfl, rfl, rfl, by decide, by decide, by decide⟩,
   (c2_exactly_once_last wteng wtst).1 wtop (by decide),
   (c2_exactly_once_last cxeng cxstate).1 cxnext (by decide),
   (c2_exactly_once_last cxeng cxaborted).1 cxnext (by decide),
   ((c2_exactly_once_last wteng wtstClosed).2.1 (some 1) (some 2) rfl (by decide)).1 rfl,
   (c2_exactly_once_last wteng wtst).2.2.1 (by decide),
   (c2_exactly_once_last wteng wtst).2.2.2 (some 3) [wtres] wtres (by decide) (by decide)⟩

/-! ### Claim C6: deferred-commit errors route to the secondary queue;
impossible without a transaction timeout -/

set_option maxHeartbeats 1600000 in
theorem thread_sql_inv (eng : Engine) (s : SqlState) (op : SqlOp)
    (hT : s.havetimeout = false)
    (hA : s.intrans = true → s.donext = true)
    (hB : s.errtrans = true → s.intrans = false)
    (hS : op.flags &&& SQLASYNC_SINGLE = SQLASYNC_SINGLE → s.intrans = false) :
    (sqlasync_thread_sql eng s op).1.havetimeout = false ∧
    (op.flags &&& SQLASYNC_SINGLE ≠ SQLASYNC_NEXT →
      (sqlasync_thread_sql eng s op).1.intrans = false) ∧
    ((sqlasync_thread_sql eng s op).1.errtrans = true →
      (sqlasync_thread_sql eng s op).1.intrans = false) := by
  simp only [sqlasync_thread_sql, sqlasync_thread_begin, sqlasync_thread_rollback,
    sqlasync_thread_commit]
  split_ifs <;>
    refine ⟨?_, fun hN => ?_, fun hE => ?_⟩ <;>
    simp_all <;> tauto

theorem thread_step_inv (eng : Engine) (s : SqlState) (mop : Option WorkOp)
    (s1 : SqlState) (tr : List Ev) (halt : Bool)
    (hT : s.havetimeout = false)
    (hA : s.intrans = true → s.donext = true)
    (hB : s.errtrans = true → s.intrans = false)
    (hg : sqlasync_getnext_ok s mop = true)
    (hstep : sqlasync_thread_step eng s mop = some (s1, tr, halt)) :
    sqlasync_thread_needscommit s mop = false ∧
    s1.havetimeout = false ∧
    (s1.intrans = true → s1.donext = true) ∧
    (s1.errtrans = true → s1.intrans = false) := by
  cases mop with
  | none =>
      simp only [sqlasync_getnext_ok, Bool.and_eq_true, Bool.not_eq_true'] at hg
      have := hA hg.1
      rw [this] at hg
      exact absurd hg.2 (by simp)
  | some op =>
      have hnc : sqlasync_thread_needscommit s (some op) = false := by
        by_cases hI : s.intrans = true
        · have hdn := hA hI
          simp only [sqlasync_thread_step] at hstep
          by_cases hn : sqlasync_thread_needscommit s (some op) = true
          · rw [if_pos ⟨hn, hdn⟩] at hstep
            cases hstep
          · simpa using hn
        · simp only [Bool.not_eq_true] at hI
          cases op <;> simp [sqlasync_thread_needscommit, hI]
      refine ⟨hnc, ?_⟩
      have hstep2 : sqlasync_thread_step eng s (some op) = some (s1, tr, halt) := hstep
      simp only [sqlasync_thread_step, hnc, Bool.false_eq_true, false_and,
        if_false] at hstep2
      cases op with
      | wsql o =>
          have hSi : o.flags &&& SQLASYNC_SINGLE = SQLASYNC_SINGLE →
              s.intrans = false := by
            intro hfl
            by_cases hI : s.intrans = true
            · have hT2 : sqlasync_thread_needscommit s (some (WorkOp.wsql o)) = true := by
                simp [sqlasync_thread_needscommit, hI, hfl]
              rw [hT2] at hnc; cases hnc
            · simpa using hI
          have hinv := thread_sql_inv eng s o hT hA hB hSi
          cases hstep2
          refine ⟨hinv.1, fun hI2 => ?_, fun hE2 => ?_⟩
          · by_cases hcn : o.flags &&& SQLASYNC_SINGLE = SQLASYNC_NEXT
            · simp [hcn]
            · exact absurd hI2 (by simp [hinv.2.1 hcn])
          · exact hinv.2.2 hE2
      | wopen q errq =>
          have hI : s.intrans = false := by
            by_cases hI : s.intrans = true
            · have hT2 : sqlasync_thread_needscommit s
                  (some (WorkOp.wopen q errq)) = true := by
                simp [sqlasync_thread_needscommit, hI]
              rw [hT2] at hnc; cases hnc
            · simpa using hI
          simp only [sqlasync_thread_open] at hstep2
          split_ifs at hstep2 <;> cases hstep2 <;>
            exact ⟨hT, fun h => absurd h (by simp [hI]),
              fun hE => by simpa [hI] using hB hE⟩
      | wclose =>
          have hI : s.intrans = false := by
            by_cases hI : s.intrans = true
            · have hT2 : sqlasync_thread_needscommit s (some WorkOp.wclose) = true := by
                simp [sqlasync_thread_needscommit, hI]
              rw [hT2] at hnc; cases hnc
            · simpa using hI
          simp only [sqlasync_thread_close] at hstep2
          cases hstep2
          exact ⟨hT, fun h => absurd h (by simp [hI]),
            fun hE => by simpa [hI] using hB hE⟩
      | wquit =>
          have hI : s.intrans = false := by
            by_cases hI : s.intrans = true
            · have hT2 : sqlasync_thread_needscommit s (some WorkOp.wquit) = true := by
                simp [sqlasync_thread_needscommit, hI]
              rw [hT2] at hnc; cases hnc
            · simpa using hI
          simp only [sqlasync_thread_close] at hstep2
          cases hstep2
          exact ⟨hT, fun h => absurd h (by simp [hI]),
            fun hE => by simpa [hI] using hB hE⟩
      | wcustom q cb =>
          have hI : s.intrans = false := by
            by_cases hI : s.intrans = true
            · have hT2 : sqlasync_thread_needscommit s
                  (some (WorkOp.wcustom q cb)) = true := by
                simp [sqlasync_thread_needscommit, hI]
              rw [hT2] at hnc; cases hnc
            · simpa using hI
          cases hstep2
          exact ⟨hT, fun h => absurd h (by simp [hI]),
            fun hE => by simpa [hI] using hB hE⟩

theorem goodRun_noDeferred (l : List (Engine × Option WorkOp)) (s : SqlState)
    (hT : s.havetimeout = false)
    (hA : s.intrans = true → s.donext = true)
    (hB : s.errtrans = true → s.intrans = false)
    (hg : goodRun s l = true) : noDeferredCommit s l = true := by
  induction l generalizing s with
  | nil => rfl
  | cons p rest ih =>
      rcases p with ⟨e, mop⟩
      simp only [goodRun, Bool.and_eq_true] at hg
      obtain ⟨hok, hrest⟩ := hg
      cases hstep : sqlasync_thread_step e s mop with
      | none => rw [hstep] at hrest; cases hrest
      | some st =>
          rcases st with ⟨s1, tr, halt⟩
          have hinv := thread_step_inv e s mop s1 tr halt hT hA hB hok hstep
          rw [hstep] at hrest
          simp only [noDeferredCommit, hstep, Bool.and_eq_true, Bool.not_eq_true']
          refine ⟨hinv.1, ?_⟩
          cases halt with
          | true => simp
          | false =>
              simp only [if_false, Bool.false_eq_true] at hrest
              simpa using ih s1 hinv.2.1 hinv.2.2.1 hinv.2.2.2 hrest

/-- C6.  A deferred commit (timeout expiry with no pending operation, or a
forced commit when dequeuing an Open/Close/Quit/Custom/Single operation)
reports its failure as a (non-last) error result carrying sqlite3_errmsg on
the connection's secondary queue `dbqueue` - the queue stored by a successful
Open - and never pushes to any other queue; and on a connection with no
transaction timeout configured, the deferred-commit block never runs in any
well-formed run (one respecting sqlasync_thread_getnext's guarantee and the
loop's assertions), so this error class cannot occur. -/
theorem c6_deferred_commit_secondary (eng : Engine) (s : SqlState) :
    (eng.commitCode ≠ SQLITE_DONE →
      (sqlasync_thread_docommit eng s).2 =
        [Ev.eng EngCall.commit, Ev.eng EngCall.rollback,
         Ev.push s.dbqueue
           (sqlasync_result_create eng.commitCode false [SqlValue.vtext eng.errmsg])]) ∧
    (eng.commitCode = SQLITE_DONE →
      (sqlasync_thread_docommit eng s).2 = [Ev.eng EngCall.commit]) ∧
    (∀ x ∈ pushesOf (sqlasync_thread_docommit eng s).2, x.1 = s.dbqueue) ∧
    (∀ q errq : Option Nat, s.dbopen = false → eng.openCode = 0 →
      sqlasync_thread_open eng s q errq =
        some ({ s with dbopen := true, dbqueue := errq },
          [Ev.push q (sqlasync_result_create SQLITE_OK true [])])) ∧
    (∀ l : List (Engine × Option WorkOp), s.havetimeout = false →
      (s.intrans = true → s.donext = true) →
      (s.errtrans = true → s.intrans = false) →
      goodRun s l = true → noDeferredCommit s l = true) := by
  refine ⟨?_, ?_, ?_, ?_, ?_⟩
  · intro h
    simp [sqlasync_thread_docommit, sqlasync_thread_commit, h]
  · intro h
    simp [sqlasync_thread_docommit, sqlasync_thread_commit, h]
  · intro x hx
    simp only [sqlasync_thread_docommit, sqlasync_thread_commit] at hx
    split_ifs at hx <;>
      simp only [List.append_eq, pushesOf_append, pushesOf, List.mem_append,
        List.mem_cons, List.not_mem_nil, or_false, false_or,
        List.nil_append, List.append_nil] at hx <;>
      first
        | (rw [hx])
        | (cases hx)
  · intro q errq hdb h0
    exact thread_open_ok eng s q errq hdb h0
  · intro l h1 h2 h3 h4
    exact goodRun_noDeferred l s h1 h2 h3 h4

/-- An engine whose COMMIT fails, for the C6 witness. -/
def cxengfail : Engine := { commitCode := SQLITE_BUSY + 1, errmsg := "cannot commit", openCode := 0 }

/-- A short well-formed run: open, one SINGLE query, quit; no timeout. -/
def cxrun : List (Engine × Option WorkOp) :=
  [(wteng, some (WorkOp.wopen (some 0) (some 1))),
   (wteng, some (WorkOp.wsql wtop)),
   (wteng, some WorkOp.wquit)]

theorem c6_deferred_commit_secondary_witness :
    (cxengfail.commitCode ≠ SQLITE_DONE ∧
      (sqlasync_thread_docommit cxengfail wtst).2 =
        [Ev.eng EngCall.commit, Ev.eng EngCall.rollback,
         Ev.push (some 9)
           (sqlasync_result_create cxengfail.commitCode false
             [SqlValue.vtext "cannot commit"])]) ∧
    (wtstClosed.dbopen = false ∧ wteng.openCode = 0 ∧
      sqlasync_thread_open wteng wtstClosed (some 0) (some 1) =
        some ({ wtstClosed with dbopen := true, dbqueue := some 1 },
          [Ev.push (some 0) (sqlasync_result_create SQLITE_OK true [])])) ∧
    (wtstClosed.havetimeout = false ∧ goodRun wtstClosed cxrun = true ∧
      noDeferredCommit wtstClosed cxrun = true) :=
  ⟨⟨by decide,
    (c6_deferred_commit_secondary cxengfail wtst).1 (by decide)⟩,
   ⟨rfl, rfl,
    (c6_deferred_commit_secondary wteng wtstClosed).2.2.2.1 (some 0) (some 1) rfl rfl⟩,
   ⟨rfl, by decide,
    (c6_deferred_commit_secondary wteng wtstClosed).2.2.2.2 cxrun rfl
      (fun h => by cases h) (fun h => by cases h) (by decide)⟩⟩

end Sqlasync
